import Mathlib

/-!
Shallow embedding of selfdrive/manager/manager.py (sunnypilot).

The persisted key-value configuration store (Params), the process registry,
the messaging transport and the hardware abstraction are external
collaborators of the supervisor; they are modelled here as explicit data
(a store function, a list of process records, per-iteration snapshots of
the subscribed state, and trace events for the actions delegated to the
hardware).  The supervisor functions `manager_init`, `manager_prepare`,
`manager_cleanup`, `manager_thread` and `main` are translated from the
source, producing an explicit event trace wherever the Python code performs
an effect on a collaborator.
-/

/-- The persisted configuration store: a partial map from key to value.
Values are modelled as decoded strings; Params stores booleans as "1"/"0". -/
abbrev Store := String → Option String

/-- Modelled from the spec: typed put on the configuration store
("typed get/put of string, boolean, and byte-blob values keyed by name"). -/
def putStore (s : Store) (k v : String) : Store :=
  fun k2 => if k2 = k then some v else s k2

/-- Modelled from the spec: the bulk-clear operation
("a bulk-clear operation scoped to keys tagged clear on start");
`ct` is the (external, unspecified) tag predicate CLEAR_ON_MANAGER_START. -/
def clearStore (ct : String → Bool) (s : Store) : Store :=
  fun k => if ct k then none else s k

/-- Params.get_bool: true exactly when the stored value is "1". -/
def getBool (s : Store) (k : String) : Bool :=
  s k == some "1"

/-- Rendering of a Python bool through put_bool. -/
def boolStr (b : Bool) : String := if b then "1" else "0"

/-- The static part of the default_params table of manager_init,
transcribed verbatim from the source. -/
def static_default_params : List (String × String) :=
  [ ("AccMadsCombo", "1"),
    ("AutoLaneChangeTimer", "0"),
    ("BelowSpeedPause", "0"),
    ("BrakeLights", "0"),
    ("BrightnessControl", "0"),
    ("CustomTorqueLateral", "0"),
    ("CameraControl", "2"),
    ("CameraControlToggle", "0"),
    ("CameraOffset", "0"),
    ("CarModel", ""),
    ("CarModelText", ""),
    ("ChevronInfo", "1"),
    ("CustomBootScreen", "0"),
    ("CustomOffsets", "0"),
    ("CompletedTrainingVersion", "0"),
    ("DevUI", "1"),
    ("DevUIRow", "1"),
    ("DisableOnroadUploads", "0"),
    ("DisengageLateralOnBrake", "1"),
    ("DisengageOnAccelerator", "0"),
    ("DynamicLaneProfile", "2"),
    ("DynamicLaneProfileToggle", "1"),
    ("EnableMads", "1"),
    ("EndToEndLongToggle", "1"),
    ("EnhancedScc", "0"),
    ("GapAdjustCruise", "1"),
    ("GapAdjustCruiseMode", "0"),
    ("GapAdjustCruiseTr", "4"),
    ("GpxDeleteAfterUpload", "1"),
    ("GpxDeleteIfUploaded", "1"),
    ("GsmMetered", "1"),
    ("HandsOnWheelMonitoring", "0"),
    ("HasAcceptedTerms", "0"),
    ("LanguageSetting", "main_en"),
    ("LastSpeedLimitSignTap", "0"),
    ("MadsIconToggle", "1"),
    ("MaxTimeOffroad", "9"),
    ("OnroadScreenOff", "0"),
    ("OnroadScreenOffBrightness", "50"),
    ("OpenpilotEnabledToggle", "1"),
    ("PathOffset", "0"),
    ("ReverseAccChange", "0"),
    ("ShowDebugUI", "1"),
    ("SpeedLimitControl", "1"),
    ("SpeedLimitPercOffset", "1"),
    ("SpeedLimitStyle", "0"),
    ("SpeedLimitValueOffset", "0"),
    ("StandStillTimer", "0"),
    ("StockLongToyota", "0"),
    ("TorqueDeadzoneDeg", "0"),
    ("TorqueFriction", "1"),
    ("TorqueMaxLatAccel", "250"),
    ("TurnSpeedControl", "0"),
    ("TurnVisionControl", "0"),
    ("VisionCurveLaneless", "0"),
    ("VwAccType", "0") ]

/-- The full default_params table: on non-PC devices the source appends
("LastUpdateTime", utcnow-iso); `now` is that timestamp value. -/
def default_params (pc : Bool) (now : String) : List (String × String) :=
  static_default_params ++ (if pc then [] else [("LastUpdateTime", now)])

/-- The RecordFrontLock step of manager_init:
if params.get_bool("RecordFrontLock"): params.put_bool("RecordFront", True). -/
def recordFrontStep (s : Store) : Store :=
  if getBool s "RecordFrontLock" then putStore s "RecordFront" "1" else s

/-- The set-unset-params loop of manager_init:
for k, v in default_params: if params.get(k) is None: params.put(k, v). -/
def applyDefaults (l : List (String × String)) (s : Store) : Store :=
  l.foldl (fun st kv => if st kv.1 = none then putStore st kv.1 kv.2 else st) s

/-- Whitespace stripped by Python int() around the literal. -/
def pySpace (c : Char) : Bool :=
  c = ' ' || c = '\t' || c = '\n' || c = '\r'

/-- Python int(str): optional surrounding whitespace, optional sign,
then decimal digits (digit-group underscores are not modelled). -/
def pyInt (s : String) : Option Int :=
  let cs := ((s.toList.dropWhile pySpace).reverse.dropWhile pySpace).reverse
  let neg := cs.head? == some '-'
  let ds := if cs.head? == some '-' || cs.head? == some '+' then cs.tail else cs
  if ds.length > 0 && ds.all Char.isDigit then
    let n : Nat := ds.foldl (fun acc c => 10 * acc + (c.toNat - 48)) 0
    some (if neg then -(n : Int) else (n : Int))
  else none

/-- Python f-string rendering of an optional store value. -/
def fstr : Option String → String
  | none => "None"
  | some s => s

/-- Python truthiness of the register() result: None and "" are falsy. -/
def truthy : Option String → Option String
  | none => none
  | some s => if s = "" then none else some s

/-- The external inputs of manager_init: device class, clock value used for
LastUpdateTime, the external CLEAR_ON_MANAGER_START tag predicate, the
PASSIVE environment variable, the version identity fields, the result of
the external register() call and the dirtiness of the working tree. -/
structure InitArgs where
  pc : Bool
  now : String
  clearTagged : String → Bool
  passiveEnv : Option String
  version : String
  termsVersion : String
  trainingVersion : String
  gitCommit : String
  gitBranch : String
  gitRemote : String
  isTestedBranch : Bool
  regResult : Option String
  dirty : Bool

/-- Outcome of manager_init: the configuration store as left behind
(puts persist even when a later step raises), the environment variables
exported in order, and the raised exception message if any. -/
structure InitResult where
  store : Store
  envExports : List (String × String)
  failure : Option String

/-- The version-params block of manager_init: seven unconditional puts. -/
def versionPuts (a : InitArgs) (s : Store) : Store :=
  putStore (putStore (putStore (putStore (putStore (putStore (putStore s
    "Version" a.version)
    "TermsVersion" a.termsVersion)
    "TrainingVersion" a.trainingVersion)
    "GitCommit" a.gitCommit)
    "GitBranch" a.gitBranch)
    "GitRemote" a.gitRemote)
    "IsTestedBranch" (boolStr a.isTestedBranch)

/-- The store after the clear_all, RecordFrontLock and default-params steps
of manager_init, in source order. -/
def afterDefaults (a : InitArgs) (s0 : Store) : Store :=
  applyDefaults (default_params a.pc a.now) (recordFrontStep (clearStore a.clearTagged s0))

/-- The tail of manager_init after the PASSIVE-environment step: the
Passive presence check, the version puts, and device registration.
set_time, the bootlog call, the /dev/shm mkdir, sentry/cloudlog setup and
the stale error-file removal touch no modelled collaborator state. -/
def initAfterPassive (a : InitArgs) (s4 : Store) : InitResult :=
  if s4 "Passive" = none then
    { store := s4, envExports := [], failure := some "Passive must be set to continue" }
  else
    let s5 := versionPuts a s4
    match truthy a.regResult with
    | some dongleId =>
      { store := s5
        envExports := ("DONGLE_ID", dongleId) :: (if a.dirty then [] else [("CLEAN", "1")])
        failure := none }
    | none =>
      { store := s5
        envExports := []
        failure := some ("Registration failed for device " ++ fstr (s5 "HardwareSerial")) }

/-- The store effect of the PASSIVE-environment step of manager_init:
if os.getenv("PASSIVE") is not None:
  params.put_bool("Passive", bool(int(os.getenv("PASSIVE", "0")))).
A present but unparsable value performs no put (int() raises first). -/
def passiveStore (a : InitArgs) (s3 : Store) : Store :=
  match a.passiveEnv with
  | some v =>
    match pyInt v with
    | some n => putStore s3 "Passive" (boolStr (!(n == 0)))
    | none => s3
  | none => s3

/-- The ValueError raised by the PASSIVE-environment step, if any. -/
def passiveFail (a : InitArgs) : Option String :=
  match a.passiveEnv with
  | some v =>
    match pyInt v with
    | some _ => none
    | none => some ("invalid literal for int() with base 10: " ++ v)
  | none => none

/-- The tail of manager_init from the PASSIVE step on, as a function of the
store `s3` left by the clear_all/RecordFrontLock/default-params steps. -/
def initFromS3 (a : InitArgs) (s3 : Store) : InitResult :=
  match passiveFail a with
  | some e => { store := s3, envExports := [], failure := some e }
  | none => initAfterPassive a (passiveStore a s3)

/-- manager_init, translated step by step from the source. -/
def manager_init (a : InitArgs) (s0 : Store) : InitResult :=
  initFromS3 a (afterDefaults a s0)

/-- One entry of the external process registry: managed_processes is an
ordered mapping; each process has a name, a current state message
(get_process_state_msg) and a prepare() that either returns or raises. -/
structure Proc where
  name : String
  stateMsg : String
  prepareOk : Bool
deriving DecidableEq

/-- A system-level action delegated to the hardware abstraction. -/
inductive SysAction
  | uninstall
  | reboot
  | shutdown
deriving DecidableEq

/-- Observable effects of the supervisor on its collaborators. -/
inductive Event
  | setEnv (k v : String)
  | startProc (n : String)
  | prepareProc (n : String)
  | stopProc (n : String) (block : Bool)
  | orchestrate (started : Bool) (notRun : List String)
  | publish (entries : List String)
  | putParam (k v : String)
  | act (a : SysAction)
deriving DecidableEq

/-- manager_prepare: for p in managed_processes.values(): p.prepare().
A raising prepare() ends the plain for-loop; the Bool records whether
the loop was ended by an exception. -/
def manager_prepare : List Proc → List Event × Bool
  | [] => ([], false)
  | p :: rest =>
    if p.prepareOk then
      let r := manager_prepare rest
      (Event.prepareProc p.name :: r.1, r.2)
    else ([Event.prepareProc p.name], true)

/-- manager_cleanup: non-blocking stop to every process, then blocking stop
to every process, both over the registry in order. -/
def manager_cleanup (reg : List Proc) : List Event :=
  reg.map (fun p => Event.stopProc p.name false) ++
    reg.map (fun p => Event.stopProc p.name true)

/-- Sentinel dongle id of an unregistered device, from
selfdrive/athena/registration (external to the supervisor source). -/
def UNREGISTERED_DONGLE_ID : String := "UnregisteredDevice"

/-- The ignore list of manager_thread, computed once before the loop:
athena/uploader when no dongle id is known, pandad under NOBOARD, plus the
non-empty entries of the comma-separated BLOCK list. -/
def computeIgnore (dongleId : Option String) (noboard : Bool) (block : String) : List String :=
  (if dongleId = none || dongleId == some UNREGISTERED_DONGLE_ID then
      ["manage_athenad", "uploader"]
    else []) ++
  (if noboard then ["pandad"] else []) ++
  (block.splitOn ",").filter (fun x => x.length > 0)

/-- How an iteration of the control loop may be interrupted: not at all,
by an exception (caught by the run wrapper), or by the SIGTERM handler's
SystemExit (not an Exception, so it escapes the except clause). -/
inductive ExcKind
  | noExc
  | raiseError
  | raiseSysExit
deriving DecidableEq

/-- The external state observed by one loop iteration: the deviceState
started flag delivered by sm.update(), the three shutdown params as
read by params.get_bool during this iteration, and whether the iteration
is interrupted. -/
structure IterInput where
  started : Bool
  doUninstall : Bool
  doShutdown : Bool
  doReboot : Bool
  exc : ExcKind
deriving DecidableEq

/-- Whether the iteration sets the loop's shutdown flag. -/
def shutdownFlag (i : IterInput) : Bool :=
  i.doUninstall || i.doShutdown || i.doReboot

/-- The LastManagerExitReason puts of one iteration: the source iterates
over ("DoUninstall", "DoShutdown", "DoReboot") and writes the param for
every flag found true, without breaking. -/
def flagPuts (i : IterInput) : List Event :=
  (if i.doUninstall then [Event.putParam "LastManagerExitReason" "DoUninstall"] else []) ++
  (if i.doShutdown then [Event.putParam "LastManagerExitReason" "DoShutdown"] else []) ++
  (if i.doReboot then [Event.putParam "LastManagerExitReason" "DoReboot"] else [])

/-- The events of one completed loop iteration, in source order:
ensure_running, managerState publication, then the shutdown-flag checks. -/
def iterTrace (reg : List Proc) (ignore : List String) (i : IterInput) : List Event :=
  Event.orchestrate i.started ignore ::
    Event.publish (reg.map (fun p => p.stateMsg)) ::
    flagPuts i

/-- How manager_thread ends: normally via the shutdown break, by an
escaping Exception, by an escaping SystemExit, or not at all (the loop is
still blocked in sm.update() waiting for fresh state). -/
inductive ThreadExit
  | normal
  | errorEsc
  | sysExitEsc
  | stillRunning
deriving DecidableEq

/-- The while-True loop of manager_thread over a finite schedule of
observed iteration inputs. -/
def manager_loop (reg : List Proc) (ignore : List String) :
    List IterInput → List Event × ThreadExit
  | [] => ([], ThreadExit.stillRunning)
  | i :: rest =>
    match i.exc with
    | ExcKind.raiseError => ([], ThreadExit.errorEsc)
    | ExcKind.raiseSysExit => ([], ThreadExit.sysExitEsc)
    | ExcKind.noExc =>
      let t := iterTrace reg ignore i
      if shutdownFlag i then (t, ThreadExit.normal)
      else
        let r := manager_loop reg ignore rest
        (t ++ r.1, r.2)

/-- manager_thread: computes the ignore list once from the store and the
NOBOARD/BLOCK environment, makes the out-of-band started=False
ensure_running call, then runs the loop. -/
def manager_thread (reg : List Proc) (store : Store) (noboard : Bool)
    (block : String) (inputs : List IterInput) : List Event × ThreadExit :=
  let ignore := computeIgnore (store "DongleId") noboard block
  let r := manager_loop reg ignore inputs
  (Event.orchestrate false ignore :: r.1, r.2)

/-- Number of loop iterations that run to completion (the iteration that
detects a shutdown flag included; an interrupted iteration excluded). -/
def processedCount : List IterInput → Nat
  | [] => 0
  | i :: rest =>
    match i.exc with
    | ExcKind.noExc => if shutdownFlag i then 1 else processedCount rest + 1
    | _ => 0

/-- The value left in param `k` by the putParam events of a trace. -/
def lastPut (t : List Event) (k : String) : Option String :=
  t.foldl
    (fun acc e =>
      match e with
      | Event.putParam k2 v => if k2 = k then some v else acc
      | _ => acc)
    none

/-- The last shutdown flag found true, in the source's evaluation order
DoUninstall, DoShutdown, DoReboot. -/
def lastTrueFlag (i : IterInput) : Option String :=
  if i.doReboot then some "DoReboot"
  else if i.doShutdown then some "DoShutdown"
  else if i.doUninstall then some "DoUninstall"
  else none

/-- The LastManagerExitReason value carried by an event, if any. -/
def exitReasonOf : Event → Option String
  | Event.putParam k v => if k = "LastManagerExitReason" then some v else none
  | _ => none

/-- The exit reasons an iteration writes, in evaluation order. -/
def exitReasonPuts (i : IterInput) : List String :=
  (if i.doUninstall then ["DoUninstall"] else []) ++
  (if i.doShutdown then ["DoShutdown"] else []) ++
  (if i.doReboot then ["DoReboot"] else [])

/-- The three shutdown params as read again by main after the loop. -/
structure Flags where
  doUninstall : Bool
  doReboot : Bool
  doShutdown : Bool
deriving DecidableEq

/-- The dispatch block at the end of main:
if DoUninstall ... elif DoReboot ... elif DoShutdown. -/
def dispatchEvents (f : Flags) : List Event :=
  if f.doUninstall then [Event.act SysAction.uninstall]
  else if f.doReboot then [Event.act SysAction.reboot]
  else if f.doShutdown then [Event.act SysAction.shutdown]
  else []

/-- The first flag found true in the order uninstall, reboot, shutdown. -/
def firstAction (f : Flags) : Option SysAction :=
  if f.doUninstall then some SysAction.uninstall
  else if f.doReboot then some SysAction.reboot
  else if f.doShutdown then some SysAction.shutdown
  else none

/-- How main ends. -/
inductive MainExit
  | ok
  | initFailed (msg : String)
  | prepareFailed
  | stillRunning
  | sysExited
deriving DecidableEq

/-- The external inputs of one run of main. -/
structure MainArgs where
  initArgs : InitArgs
  store0 : Store
  prepareOnly : Bool
  registry : List Proc
  noboard : Bool
  block : String
  inputs : List IterInput
  dispatchFlags : Flags

/-- The events of main up to and including manager_prepare: the
environment exports of manager_init, the early ui start (skipped under
PREPAREONLY), then the prepare loop. -/
def mainPre (a : MainArgs) : List Event :=
  ((manager_init a.initArgs a.store0).envExports.map fun p => Event.setEnv p.1 p.2) ++
    (if a.prepareOnly then [] else [Event.startProc "ui"]) ++
    (manager_prepare a.registry).1

/-- The tail of main after manager_thread returns or raises: the finally
clause runs manager_cleanup on every path; the dispatch block runs after
a normal return and after a caught Exception, but not after SystemExit. -/
def afterThread (a : MainArgs) (tEv : List Event) : ThreadExit → List Event × MainExit
  | ThreadExit.stillRunning => (mainPre a ++ tEv, MainExit.stillRunning)
  | ThreadExit.sysExitEsc =>
      (mainPre a ++ tEv ++ manager_cleanup a.registry, MainExit.sysExited)
  | ThreadExit.normal =>
      (mainPre a ++ tEv ++ manager_cleanup a.registry ++ dispatchEvents a.dispatchFlags,
        MainExit.ok)
  | ThreadExit.errorEsc =>
      (mainPre a ++ tEv ++ manager_cleanup a.registry ++ dispatchEvents a.dispatchFlags,
        MainExit.ok)

/-- main, translated from the source: manager_init (a raise aborts the run
before any process starts), early ui start, manager_prepare (a raise
propagates out of main), the PREPAREONLY short-circuit, then
manager_thread inside try/except-Exception/finally-manager_cleanup,
followed by the system-action dispatch block. -/
def manager_main (a : MainArgs) : List Event × MainExit :=
  match (manager_init a.initArgs a.store0).failure with
  | some e => ([], MainExit.initFailed e)
  | none =>
    if (manager_prepare a.registry).2 then (mainPre a, MainExit.prepareFailed)
    else if a.prepareOnly then (mainPre a, MainExit.ok)
    else
      let r := manager_thread a.registry (manager_init a.initArgs a.store0).store
        a.noboard a.block a.inputs
      afterThread a r.1 r.2

/-- Whether the run entered the control loop and left it, normally or via
an exception (Exception or SystemExit). -/
def loopRan (a : MainArgs) : Bool :=
  (decide ((manager_main a).2 = MainExit.ok) && !a.prepareOnly) ||
    decide ((manager_main a).2 = MainExit.sysExited)

/-- Whether manager_init reaches the registration step: the PASSIVE
environment value, if present, parses, and the Passive param resolves. -/
def preRegOk (a : InitArgs) (s0 : Store) : Bool :=
  match a.passiveEnv with
  | some v => (pyInt v).isSome
  | none => ((afterDefaults a s0) "Passive").isSome

/-- Event classifiers. -/
def isAct : Event → Bool
  | Event.act _ => true
  | _ => false

def isStartProc : Event → Bool
  | Event.startProc _ => true
  | _ => false

def isPublish : Event → Bool
  | Event.publish _ => true
  | _ => false

def isBlockStop : Event → Bool
  | Event.stopProc _ true => true
  | _ => false

def isNonBlockStop : Event → Bool
  | Event.stopProc _ false => true
  | _ => false

/-! ### Store lemmas -/

lemma putStore_same (s : Store) (k v : String) : putStore s k v k = some v := by
  simp [putStore]

lemma putStore_other (s : Store) (k v k2 : String) (h : k2 ≠ k) :
    putStore s k v k2 = s k2 := by
  simp [putStore, h]

lemma applyDefaults_preserve (l : List (String × String)) (s : Store) (k w : String)
    (h : s k = some w) : applyDefaults l s k = some w := by
  induction l generalizing s with
  | nil => simpa [applyDefaults]
  | cons kv rest ih =>
    have hstep : applyDefaults (kv :: rest) s =
        applyDefaults rest (if s kv.1 = none then putStore s kv.1 kv.2 else s) := rfl
    rw [hstep]
    by_cases hk : s kv.1 = none
    · have hne : k ≠ kv.1 := by
        intro he; rw [he, hk] at h; exact Option.noConfusion h
      have : (putStore s kv.1 kv.2) k = some w := by
        rw [putStore_other s kv.1 kv.2 k hne]; exact h
      simp only [hk, if_true]
      exact ih _ this
    · simp only [hk, if_false]
      exact ih _ h

lemma applyDefaults_not_mem (l : List (String × String)) (s : Store) (k : String)
    (h : k ∉ l.map Prod.fst) : applyDefaults l s k = s k := by
  induction l generalizing s with
  | nil => rfl
  | cons kv rest ih =>
    have hne : k ≠ kv.1 := by
      intro he; exact h (by simp [he])
    have hrest : k ∉ rest.map Prod.fst := by
      intro hm; exact h (by simp [hm])
    have hstep : applyDefaults (kv :: rest) s =
        applyDefaults rest (if s kv.1 = none then putStore s kv.1 kv.2 else s) := rfl
    rw [hstep]
    by_cases hk : s kv.1 = none
    · simp only [hk, if_true]
      rw [ih _ hrest, putStore_other s kv.1 kv.2 k hne]
    · simp only [hk, if_false]
      exact ih _ hrest

lemma applyDefaults_sets (l : List (String × String)) (s : Store) (k v : String)
    (hmem : (k, v) ∈ l) (hnd : (l.map Prod.fst).Nodup) (h : s k = none) :
    applyDefaults l s k = some v := by
  induction l generalizing s with
  | nil => cases hmem
  | cons kv rest ih =>
    have hstep : applyDefaults (kv :: rest) s =
        applyDefaults rest (if s kv.1 = none then putStore s kv.1 kv.2 else s) := rfl
    rw [hstep]
    rcases List.mem_cons.mp hmem with hhd | htl
    · subst hhd
      have hif : (if s (k, v).1 = none then putStore s (k, v).1 (k, v).2 else s)
          = putStore s k v := by simp [h]
      rw [hif]
      exact applyDefaults_preserve rest _ k v (putStore_same s k v)
    · have hne : kv.1 ≠ k := by
        intro he
        have : k ∈ rest.map Prod.fst := List.mem_map.mpr ⟨(k, v), htl, rfl⟩
        rw [List.map_cons, List.nodup_cons] at hnd
        exact hnd.1 (he ▸ this)
      have hnd2 : (rest.map Prod.fst).Nodup := by
        rw [List.map_cons, List.nodup_cons] at hnd; exact hnd.2
      by_cases hk : s kv.1 = none
      · simp only [hk, if_true]
        exact ih _ htl hnd2 (by rw [putStore_other s kv.1 kv.2 k (fun he => hne he.symm)]; exact h)
      · simp only [hk, if_false]
        exact ih _ htl hnd2 h

/-- The params written unconditionally after the default table. -/
def versionKeys : List String :=
  ["Version", "TermsVersion", "TrainingVersion", "GitCommit", "GitBranch",
   "GitRemote", "IsTestedBranch"]

lemma versionPuts_other (a : InitArgs) (s : Store) (k : String)
    (h : k ∉ versionKeys) : versionPuts a s k = s k := by
  simp only [versionKeys, List.mem_cons, List.not_mem_nil, or_false] at h
  push_neg at h
  obtain ⟨h1, h2, h3, h4, h5, h6, h7⟩ := h
  unfold versionPuts
  rw [putStore_other _ _ _ _ h7, putStore_other _ _ _ _ h6,
      putStore_other _ _ _ _ h5, putStore_other _ _ _ _ h4,
      putStore_other _ _ _ _ h3, putStore_other _ _ _ _ h2,
      putStore_other _ _ _ _ h1]

lemma initAfterPassive_store (a : InitArgs) (s : Store) (k : String)
    (h : k ∉ versionKeys) : (initAfterPassive a s).store k = s k := by
  unfold initAfterPassive
  by_cases hp : s "Passive" = none
  · simp [hp]
  · simp only [hp, if_false]
    cases htr : truthy a.regResult with
    | none => simpa using versionPuts_other a s k h
    | some d => simpa using versionPuts_other a s k h

lemma passiveStore_other (a : InitArgs) (s : Store) (k : String)
    (h1 : k ≠ "Passive") : passiveStore a s k = s k := by
  unfold passiveStore
  cases a.passiveEnv with
  | none => rfl
  | some v =>
    dsimp only
    cases pyInt v with
    | none => rfl
    | some n => exact putStore_other _ _ _ _ h1

lemma initFromS3_store (a : InitArgs) (s3 : Store) (k : String)
    (h1 : k ≠ "Passive") (h2 : k ∉ versionKeys) :
    (initFromS3 a s3).store k = s3 k := by
  unfold initFromS3
  cases passiveFail a with
  | some e => rfl
  | none =>
    dsimp only
    rw [initAfterPassive_store a _ k h2, passiveStore_other a _ k h1]

lemma init_store_agree (a : InitArgs) (s0 : Store) (k : String)
    (h1 : k ≠ "Passive") (h2 : k ∉ versionKeys) :
    (manager_init a s0).store k = afterDefaults a s0 k :=
  initFromS3_store a (afterDefaults a s0) k h1 h2

/-- Keys a default-table entry can never collide with. -/
def reservedKeys : List String :=
  "RecordFront" :: "Passive" :: versionKeys

lemma static_keys_reserved_free :
    ∀ p ∈ static_default_params, p.1 ∉ reservedKeys := by decide

lemma default_key_cases (pc : Bool) (now k v : String)
    (h : (k, v) ∈ default_params pc now) :
    (k, v) ∈ static_default_params ∨ k = "LastUpdateTime" := by
  unfold default_params at h
  rcases List.mem_append.mp h with h1 | h2
  · exact Or.inl h1
  · right
    cases pc with
    | true => simp at h2
    | false =>
      simp only [if_neg Bool.false_ne_true] at h2
      have := List.mem_singleton.mp h2
      exact congrArg Prod.fst this

lemma default_key_not_reserved (pc : Bool) (now k v : String)
    (h : (k, v) ∈ default_params pc now) : k ∉ reservedKeys := by
  rcases default_key_cases pc now k v h with h1 | h2
  · exact static_keys_reserved_free _ h1
  · rw [h2]; decide

lemma default_keys_nodup (pc : Bool) (now : String) :
    ((default_params pc now).map Prod.fst).Nodup := by
  unfold default_params
  rw [List.map_append, List.nodup_append]
  refine ⟨by decide, ?_, ?_⟩
  · cases pc <;> simp
  · intro x hx hy
    cases pc with
    | true => simp at hy
    | false =>
      simp only [if_neg Bool.false_ne_true, List.map_cons, List.map_nil,
        List.mem_singleton] at hy
      subst hy
      revert hx
      decide

lemma reserved_not_default_key (pc : Bool) (now k : String) (hk : k ∈ reservedKeys) :
    k ∉ (default_params pc now).map Prod.fst := by
  intro hm
  rcases List.mem_map.mp hm with ⟨p, hp, hpk⟩
  have hp2 : (p.1, p.2) ∈ default_params pc now := by rw [Prod.mk.eta]; exact hp
  exact default_key_not_reserved pc now p.1 p.2 hp2 (hpk ▸ hk)

lemma clearStore_none (ct : String → Bool) (s0 : Store) (k : String)
    (h : s0 k = none) : clearStore ct s0 k = none := by
  unfold clearStore; split <;> simp [h]

lemma clearStore_untagged (ct : String → Bool) (s0 : Store) (k : String)
    (h : ct k = false) : clearStore ct s0 k = s0 k := by
  unfold clearStore; simp [h]

lemma recordFrontStep_other (s : Store) (k : String) (h : k ≠ "RecordFront") :
    recordFrontStep s k = s k := by
  unfold recordFrontStep
  split
  · exact putStore_other _ _ _ _ h
  · rfl

/-- Claim C4: after manager_init returns, every (key, default) pair of the
default-parameter table holds the table default if the key was unset before
initialization, and keeps its previous value if it was set (and not subject
to the separate CLEAR_ON_MANAGER_START reset that precedes the default
application): the default application itself never overwrites. -/
theorem default_params_respected (a : InitArgs) (s0 : Store) (k v : String)
    (hmem : (k, v) ∈ default_params a.pc a.now)
    (hdone : (manager_init a s0).failure = none) :
    (s0 k = none → (manager_init a s0).store k = some v)
    ∧ (∀ w, s0 k = some w → a.clearTagged k = false →
        (manager_init a s0).store k = some w) := by
  have hres := default_key_not_reserved a.pc a.now k v hmem
  simp only [reservedKeys, List.mem_cons, not_or] at hres
  obtain ⟨hrf, hp, hvk⟩ := hres
  rw [init_store_agree a s0 k hp hvk, afterDefaults]
  constructor
  · intro hk0
    have h1 : clearStore a.clearTagged s0 k = none := clearStore_none _ _ _ hk0
    have h2 : recordFrontStep (clearStore a.clearTagged s0) k = none := by
      rw [recordFrontStep_other _ _ hrf]; exact h1
    exact applyDefaults_sets _ _ k v hmem (default_keys_nodup _ _) h2
  · intro w hw hct
    have h1 : clearStore a.clearTagged s0 k = some w := by
      rw [clearStore_untagged _ _ _ hct]; exact hw
    have h2 : recordFrontStep (clearStore a.clearTagged s0) k = some w := by
      rw [recordFrontStep_other _ _ hrf]; exact h1
    exact applyDefaults_preserve _ _ k w h2

/-! ### Concrete fixtures used by witnesses and counterexamples -/

/-- A store holding only a persisted Passive mode. -/
def cStore : Store := fun k => if k = "Passive" then some "0" else none

/-- Plain successful initialization inputs. -/
def cInit : InitArgs :=
  { pc := true, now := "2022-01-01T00:00:00", clearTagged := fun _ => false
    passiveEnv := none, version := "0.8.1", termsVersion := "2"
    trainingVersion := "0.2.0", gitCommit := "abc", gitBranch := "master"
    gitRemote := "origin", isTestedBranch := false
    regResult := some "dongle1", dirty := false }

/-- Witness for C4 at the concrete key DevUI, unset in cStore. -/
theorem default_params_respected_witness :
    (manager_init cInit cStore).store "DevUI" = some "1" :=
  (default_params_respected cInit cStore "DevUI" "1" (by decide) (by rfl)).1 (by rfl)

/-- Claim C10: a true RecordFrontLock makes manager_init force RecordFront
to true, overwriting any previously persisted RecordFront value, and
RecordFront is not a key of the default table, so the never-overwrite rule
of the default application does not protect it. -/
theorem record_front_lock_overwrites (a : InitArgs) (s0 : Store)
    (hlock : getBool (clearStore a.clearTagged s0) "RecordFrontLock" = true) :
    (manager_init a s0).store "RecordFront" = some "1"
    ∧ ∀ v, ("RecordFront", v) ∉ default_params a.pc a.now := by
  constructor
  · rw [init_store_agree a s0 "RecordFront" (by decide) (by decide), afterDefaults]
    have h2 : recordFrontStep (clearStore a.clearTagged s0) "RecordFront" = some "1" := by
      unfold recordFrontStep
      rw [hlock]
      simp only [if_true]
      exact putStore_same _ _ _
    exact applyDefaults_preserve _ _ _ _ h2
  · intro v hmem
    exact default_key_not_reserved a.pc a.now _ v hmem (by decide)

/-- A store with RecordFrontLock set and a prior RecordFront value. -/
def cStore10 : Store :=
  fun k =>
    if k = "RecordFrontLock" then some "1"
    else if k = "RecordFront" then some "0"
    else if k = "Passive" then some "1" else none

/-- Witness for C10: the prior RecordFront value "0" is overwritten. -/
theorem record_front_lock_overwrites_witness :
    cStore10 "RecordFront" = some "0"
    ∧ (manager_init cInit cStore10).store "RecordFront" = some "1" :=
  ⟨by rfl, (record_front_lock_overwrites cInit cStore10 (by rfl)).1⟩

lemma afterDefaults_passive_none (a : InitArgs) (s0 : Store)
    (h : s0 "Passive" = none) : afterDefaults a s0 "Passive" = none := by
  unfold afterDefaults
  rw [applyDefaults_not_mem _ _ _ (reserved_not_default_key a.pc a.now _ (by decide)),
      recordFrontStep_other _ _ (by decide)]
  exact clearStore_none _ _ _ h

lemma passive_preserved_after (a : InitArgs) (s4 : Store) (w : String)
    (h : s4 "Passive" = some w) : (initAfterPassive a s4).store "Passive" = some w := by
  rw [initAfterPassive_store a s4 "Passive" (by decide)]
  exact h

/-- Claim C5 (amended): with no PASSIVE environment override and no
persisted Passive value, manager_init raises "Passive must be set to
continue" and main aborts with no process started and no orchestration
performed; a PASSIVE override that parses as an integer is persisted,
overwriting any prior Passive value.  (A present but non-integer override
instead makes manager_init raise without persisting anything.) -/
theorem passive_mode_resolution (a : InitArgs) (s0 : Store) :
    (a.passiveEnv = none → s0 "Passive" = none →
      (manager_init a s0).failure = some "Passive must be set to continue"
      ∧ ∀ m : MainArgs, m.initArgs = a → m.store0 = s0 →
          (manager_main m).1 = []
          ∧ (manager_main m).2 = MainExit.initFailed "Passive must be set to continue")
    ∧ (∀ v n, a.passiveEnv = some v → pyInt v = some n →
        (manager_init a s0).store "Passive" = some (boolStr (!(n == 0)))) := by
  constructor
  · intro hpe hp0
    have hpf : passiveFail a = none := by unfold passiveFail; rw [hpe]
    have hps : passiveStore a (afterDefaults a s0) "Passive" = none := by
      unfold passiveStore; rw [hpe]; exact afterDefaults_passive_none a s0 hp0
    have hfail : (manager_init a s0).failure = some "Passive must be set to continue" := by
      unfold manager_init initFromS3
      rw [hpf]
      dsimp only
      unfold initAfterPassive
      rw [hps]
      simp
    refine ⟨hfail, ?_⟩
    intro m hm1 hm2
    unfold manager_main
    rw [hm1, hm2, hfail]
    exact ⟨rfl, rfl⟩
  · intro v n hpe hpi
    have hpf : passiveFail a = none := by
      unfold passiveFail; rw [hpe]; dsimp only; rw [hpi]
    have hmi : manager_init a s0
        = initAfterPassive a (passiveStore a (afterDefaults a s0)) := by
      unfold manager_init initFromS3
      rw [hpf]
    rw [hmi]
    apply passive_preserved_after
    unfold passiveStore
    rw [hpe]
    dsimp only
    rw [hpi]
    exact putStore_same _ _ _

/-- Initialization inputs with a non-integer PASSIVE environment value. -/
def cexInit5 : InitArgs :=
  { pc := true, now := "2022-01-01T00:00:00", clearTagged := fun _ => false
    passiveEnv := some "x", version := "0.8.1", termsVersion := "2"
    trainingVersion := "0.2.0", gitCommit := "abc", gitBranch := "master"
    gitRemote := "origin", isTestedBranch := false
    regResult := some "dongle1", dirty := false }

/-- Counterexample to claim C5 as stated: with the PASSIVE environment
override present (value "x") and a prior persisted Passive value "0",
manager_init raises (int("x") raises ValueError) and the override is not
persisted: the prior value survives un-overridden, so "if the environment
override is present, it is persisted and wins" is false. -/
theorem passive_env_present_not_persisted_cex :
    cexInit5.passiveEnv = some "x"
    ∧ (manager_init cexInit5 cStore).failure ≠ none
    ∧ (manager_init cexInit5 cStore).store "Passive" = some "0" :=
  ⟨rfl, by decide, by rfl⟩

/-- A store with nothing persisted at all. -/
def cStoreEmpty : Store := fun _ => none

/-- Initialization inputs with no PASSIVE environment override. -/
def cexInit5b : InitArgs :=
  { pc := true, now := "2022-01-01T00:00:00", clearTagged := fun _ => false
    passiveEnv := none, version := "0.8.1", termsVersion := "2"
    trainingVersion := "0.2.0", gitCommit := "abc", gitBranch := "master"
    gitRemote := "origin", isTestedBranch := false
    regResult := some "dongle1", dirty := false }

/-- Witness for C5: no override, no persisted mode, manager_init fails. -/
theorem passive_mode_resolution_witness :
    (manager_init cexInit5b cStoreEmpty).failure
      = some "Passive must be set to continue" :=
  ((passive_mode_resolution cexInit5b cStoreEmpty).1 rfl rfl).1

lemma main_trace_starts_with_pre (m : MainArgs)
    (hf : (manager_init m.initArgs m.store0).failure = none) :
    ∃ q, (manager_main m).1 = mainPre m ++ q := by
  unfold manager_main
  rw [hf]
  dsimp only
  split
  · exact ⟨[], (List.append_nil _).symm⟩
  · split
    · exact ⟨[], (List.append_nil _).symm⟩
    · cases hte : (manager_thread m.registry (manager_init m.initArgs m.store0).store
          m.noboard m.block m.inputs).2 with
      | stillRunning => exact ⟨_, rfl⟩
      | sysExitEsc =>
        exact ⟨(manager_thread m.registry (manager_init m.initArgs m.store0).store
            m.noboard m.block m.inputs).1 ++ manager_cleanup m.registry,
          by simp only [afterThread, List.append_assoc]⟩
      | normal =>
        exact ⟨(manager_thread m.registry (manager_init m.initArgs m.store0).store
            m.noboard m.block m.inputs).1
            ++ (manager_cleanup m.registry ++ dispatchEvents m.dispatchFlags),
          by simp only [afterThread, List.append_assoc]⟩
      | errorEsc =>
        exact ⟨(manager_thread m.registry (manager_init m.initArgs m.store0).store
            m.noboard m.block m.inputs).1
            ++ (manager_cleanup m.registry ++ dispatchEvents m.dispatchFlags),
          by simp only [afterThread, List.append_assoc]⟩

lemma init_reaches_registration (a : InitArgs) (s0 : Store) (h : preRegOk a s0 = true) :
    manager_init a s0 = initAfterPassive a (passiveStore a (afterDefaults a s0))
    ∧ passiveStore a (afterDefaults a s0) "Passive" ≠ none := by
  unfold preRegOk at h
  cases hpe : a.passiveEnv with
  | some v =>
    rw [hpe] at h
    dsimp only at h
    rcases Option.isSome_iff_exists.mp h with ⟨n, hpi⟩
    have hpf : passiveFail a = none := by
      unfold passiveFail; rw [hpe]; dsimp only; rw [hpi]
    refine ⟨by unfold manager_init initFromS3; rw [hpf], ?_⟩
    unfold passiveStore
    rw [hpe]
    dsimp only
    rw [hpi]
    dsimp only
    rw [putStore_same]
    exact Option.noConfusion
  | none =>
    rw [hpe] at h
    dsimp only at h
    rcases Option.isSome_iff_exists.mp h with ⟨w, hw⟩
    have hpf : passiveFail a = none := by unfold passiveFail; rw [hpe]
    refine ⟨by unfold manager_init initFromS3; rw [hpf], ?_⟩
    unfold passiveStore
    rw [hpe]
    dsimp only
    rw [hw]
    exact Option.noConfusion

/-- Claim C6: provided initialization reaches the registration step, a
falsy registration result makes manager_init raise with a message carrying
the persisted HardwareSerial (rendered through the f-string), and no other
outcome raises that way: a truthy result instead yields no failure, the
dongle id exported to DONGLE_ID as the very first environment export, and
in main that export is the first event of the whole run, before any child
process start. -/
theorem registration_outcome (a : InitArgs) (s0 : Store) (h : preRegOk a s0 = true) :
    (truthy a.regResult = none →
      (manager_init a s0).failure =
        some ("Registration failed for device "
          ++ fstr ((manager_init a s0).store "HardwareSerial")))
    ∧ (∀ d, truthy a.regResult = some d →
        (manager_init a s0).failure = none
        ∧ (manager_init a s0).envExports.head? = some ("DONGLE_ID", d)
        ∧ ∀ m : MainArgs, m.initArgs = a → m.store0 = s0 →
            ∃ rest, (manager_main m).1 = Event.setEnv "DONGLE_ID" d :: rest) := by
  obtain ⟨hmi, hps⟩ := init_reaches_registration a s0 h
  constructor
  · intro htr
    rw [hmi]
    unfold initAfterPassive
    rw [if_neg hps, htr]
  · intro d htr
    have hfail : (manager_init a s0).failure = none := by
      rw [hmi]; unfold initAfterPassive; rw [if_neg hps, htr]
    have hexp : (manager_init a s0).envExports
        = ("DONGLE_ID", d) :: (if a.dirty then [] else [("CLEAN", "1")]) := by
      rw [hmi]; unfold initAfterPassive; rw [if_neg hps, htr]
    refine ⟨hfail, by rw [hexp]; rfl, ?_⟩
    intro m hm1 hm2
    have hf2 : (manager_init m.initArgs m.store0).failure = none := by
      rw [hm1, hm2]; exact hfail
    obtain ⟨q, hq⟩ := main_trace_starts_with_pre m hf2
    have hshape : ∃ t, mainPre m = Event.setEnv "DONGLE_ID" d :: t := by
      unfold mainPre
      rw [hm1, hm2, hexp]
      refine ⟨List.map (fun p => Event.setEnv p.1 p.2)
          (if a.dirty = true then [] else [("CLEAN", "1")])
        ++ ((if m.prepareOnly = true then [] else [Event.startProc "ui"])
        ++ (manager_prepare m.registry).1), ?_⟩
      simp
    obtain ⟨t, ht⟩ := hshape
    exact ⟨t ++ q, by rw [hq, ht, List.cons_append]⟩

/-- Initialization inputs whose registration fails; serial persisted. -/
def cexInit6 : InitArgs :=
  { pc := true, now := "2022-01-01T00:00:00", clearTagged := fun _ => false
    passiveEnv := some "1", version := "0.8.1", termsVersion := "2"
    trainingVersion := "0.2.0", gitCommit := "abc", gitBranch := "master"
    gitRemote := "origin", isTestedBranch := false
    regResult := none, dirty := false }

/-- A store carrying a HardwareSerial. -/
def cStore6 : Store := fun k => if k = "HardwareSerial" then some "serial9" else none

/-- Witness for C6: failed registration raises with the serial number. -/
theorem registration_outcome_witness :
    (manager_init cexInit6 cStore6).failure
      = some ("Registration failed for device "
          ++ fstr ((manager_init cexInit6 cStore6).store "HardwareSerial"))
    ∧ fstr ((manager_init cexInit6 cStore6).store "HardwareSerial") = "serial9" :=
  ⟨(registration_outcome cexInit6 cStore6 (by rfl)).1 (by rfl), by rfl⟩

/-! ### Control-loop trace lemmas -/

lemma mem_flagPuts (i : IterInput) (e : Event) (h : e ∈ flagPuts i) :
    ∃ v, e = Event.putParam "LastManagerExitReason" v := by
  unfold flagPuts at h
  rcases List.mem_append.mp h with h1 | h2
  · rcases List.mem_append.mp h1 with h3 | h4
    · split at h3
      · exact ⟨_, List.mem_singleton.mp h3⟩
      · simp at h3
    · split at h4
      · exact ⟨_, List.mem_singleton.mp h4⟩
      · simp at h4
  · split at h2
    · exact ⟨_, List.mem_singleton.mp h2⟩
    · simp at h2

lemma mem_iterTrace (reg : List Proc) (ignore : List String) (i : IterInput) (e : Event)
    (h : e ∈ iterTrace reg ignore i) :
    e = Event.orchestrate i.started ignore
    ∨ e = Event.publish (reg.map fun p => p.stateMsg)
    ∨ ∃ v, e = Event.putParam "LastManagerExitReason" v := by
  unfold iterTrace at h
  rcases List.mem_cons.mp h with h1 | h2
  · exact Or.inl h1
  · rcases List.mem_cons.mp h2 with h3 | h4
    · exact Or.inr (Or.inl h3)
    · exact Or.inr (Or.inr (mem_flagPuts i e h4))

lemma mem_loop (reg : List Proc) (ignore : List String) (inputs : List IterInput) (e : Event)
    (h : e ∈ (manager_loop reg ignore inputs).1) :
    ∃ i ∈ inputs, e ∈ iterTrace reg ignore i := by
  induction inputs with
  | nil => simp [manager_loop] at h
  | cons i rest ih =>
    unfold manager_loop at h
    cases hex : i.exc with
    | raiseError => rw [hex] at h; simp at h
    | raiseSysExit => rw [hex] at h; simp at h
    | noExc =>
      rw [hex] at h
      dsimp only at h
      by_cases hs : shutdownFlag i = true
      · rw [if_pos hs] at h
        exact ⟨i, List.mem_cons_self i rest, h⟩
      · rw [if_neg hs] at h
        dsimp only at h
        rcases List.mem_append.mp h with h1 | h2
        · exact ⟨i, List.mem_cons_self i rest, h1⟩
        · obtain ⟨j, hj, hje⟩ := ih h2
          exact ⟨j, List.mem_cons_of_mem i hj, hje⟩

lemma mem_thread (reg : List Proc) (store : Store) (noboard : Bool) (block : String)
    (inputs : List IterInput) (e : Event)
    (h : e ∈ (manager_thread reg store noboard block inputs).1) :
    e = Event.orchestrate false (computeIgnore (store "DongleId") noboard block)
    ∨ ∃ i ∈ inputs, e ∈ iterTrace reg (computeIgnore (store "DongleId") noboard block) i := by
  unfold manager_thread at h
  dsimp only at h
  rcases List.mem_cons.mp h with h1 | h2
  · exact Or.inl h1
  · exact Or.inr (mem_loop _ _ _ _ h2)

/-- Counterexample to claim C3 as stated: in an iteration where both
DoUninstall and DoReboot are observed true, the value persisted as
LastManagerExitReason is "DoReboot" (the flag loop writes every true flag
without breaking, so the last true flag wins), not the first true flag
"DoUninstall". -/
theorem exit_reason_first_flag_cex :
    lastPut ((manager_loop [] [] [⟨true, true, false, true, ExcKind.noExc⟩]).1)
        "LastManagerExitReason" = some "DoReboot"
    ∧ ("DoReboot" : String) ≠ "DoUninstall" := by
  exact ⟨by decide, by decide⟩

/-- Claim C3 (amended): each iteration evaluates the three flags in the
fixed order DoUninstall, DoShutdown, DoReboot and writes
LastManagerExitReason once per true flag in that order, so the LAST flag
found true is the one persisted when the loop exits; the loop exits on the
first iteration observing any true flag, and at most one reason is then
acted upon by the dispatch block. -/
theorem exit_reason_last_flag_wins (reg : List Proc) (ignore : List String)
    (i : IterInput) (rest : List IterInput) (hexc : i.exc = ExcKind.noExc) :
    ((iterTrace reg ignore i).filterMap exitReasonOf = exitReasonPuts i)
    ∧ (lastPut (iterTrace reg ignore i) "LastManagerExitReason" = lastTrueFlag i)
    ∧ (shutdownFlag i = true →
        manager_loop reg ignore (i :: rest) = (iterTrace reg ignore i, ThreadExit.normal)) := by
  cases i with
  | mk st du ds dr ex =>
    dsimp only at hexc
    subst hexc
    cases du <;> cases ds <;> cases dr
    · exact ⟨rfl, rfl, fun h => nomatch h⟩
    · exact ⟨rfl, rfl, fun h => rfl⟩
    · exact ⟨rfl, rfl, fun h => rfl⟩
    · exact ⟨rfl, rfl, fun h => rfl⟩
    · exact ⟨rfl, rfl, fun h => rfl⟩
    · exact ⟨rfl, rfl, fun h => rfl⟩
    · exact ⟨rfl, rfl, fun h => rfl⟩
    · exact ⟨rfl, rfl, fun h => rfl⟩

/-- Witness for the amended C3 at a concrete iteration input. -/
theorem exit_reason_last_flag_wins_witness :
    lastPut (iterTrace [] [] ⟨true, false, true, false, ExcKind.noExc⟩)
      "LastManagerExitReason" = some "DoShutdown" :=
  (exit_reason_last_flag_wins [] [] ⟨true, false, true, false, ExcKind.noExc⟩ [] rfl).2.1

lemma filter_isPublish_flagPuts (i : IterInput) :
    (flagPuts i).filter isPublish = [] := by
  unfold flagPuts
  split <;> split <;> split <;> rfl

lemma filter_isPublish_iterTrace (reg : List Proc) (ignore : List String) (i : IterInput) :
    (iterTrace reg ignore i).filter isPublish
      = [Event.publish (reg.map fun p => p.stateMsg)] := by
  unfold iterTrace
  rw [List.filter_cons, List.filter_cons]
  simp [isPublish, filter_isPublish_flagPuts i]

/-- Claim C9: every completed control-loop iteration, the final
shutdown-detecting one included, publishes exactly one managerState
snapshot holding exactly one status entry per registered process, in
registry order; interrupted iterations terminate the loop and publish
nothing further. -/
theorem health_publish_every_iteration (reg : List Proc) (ignore : List String)
    (inputs : List IterInput) :
    (manager_loop reg ignore inputs).1.filter isPublish
      = List.replicate (processedCount inputs)
          (Event.publish (reg.map fun p => p.stateMsg)) := by
  induction inputs with
  | nil => rfl
  | cons i rest ih =>
    unfold manager_loop processedCount
    cases hex : i.exc with
    | raiseError => rfl
    | raiseSysExit => rfl
    | noExc =>
      dsimp only
      by_cases hs : shutdownFlag i = true
      · rw [if_pos hs, if_pos hs]
        exact filter_isPublish_iterTrace reg ignore i
      · rw [if_neg hs, if_neg hs]
        dsimp only
        rw [List.filter_append, filter_isPublish_iterTrace reg ignore i, ih,
          List.replicate_succ]
        rfl

lemma string_ne_empty_iff (x : String) : x ≠ "" ↔ 0 < x.length := by
  constructor
  · intro h
    cases x with
    | mk data =>
      cases data with
      | nil => exact absurd rfl h
      | cons c cs => simp [String.length]
  · intro h he
    subst he
    simp [String.length] at h

/-- Claim C7: the exclusion list is computed once, before the loop's first
iteration, and every orchestration call of the whole thread (the
out-of-band started=False call and every loop iteration) receives exactly
that list; the list consists of manage_athenad and uploader when no
registered dongle id is known, pandad when NOBOARD is set, and every
non-empty entry of the comma-separated BLOCK list. -/
theorem ignore_set_fixed (reg : List Proc) (store : Store) (noboard : Bool)
    (block : String) (inputs : List IterInput) :
    (∀ st ig, Event.orchestrate st ig ∈ (manager_thread reg store noboard block inputs).1 →
      ig = computeIgnore (store "DongleId") noboard block)
    ∧ (∀ d x, x ∈ computeIgnore d noboard block ↔
        (((d = none ∨ d = some UNREGISTERED_DONGLE_ID)
            ∧ (x = "manage_athenad" ∨ x = "uploader"))
        ∨ (noboard = true ∧ x = "pandad")
        ∨ (x ∈ block.splitOn "," ∧ x ≠ ""))) := by
  constructor
  · intro st ig h
    rcases mem_thread reg store noboard block inputs _ h with h1 | ⟨i, _, hin⟩
    · injection h1 with h1a h1b
    · rcases mem_iterTrace _ _ _ _ hin with h2 | h2 | ⟨v, h2⟩
      · injection h2 with h2a h2b
      · exact absurd h2 (by simp)
      · exact absurd h2 (by simp)
  · intro d x
    unfold computeIgnore
    by_cases hd : d = none ∨ d = some UNREGISTERED_DONGLE_ID
    · have hb : (decide (d = none) || (d == some UNREGISTERED_DONGLE_ID)) = true := by
        rcases hd with h | h <;> simp [h]
      rw [hb]
      cases noboard <;>
        simp [List.mem_append, List.mem_filter, string_ne_empty_iff, hd] <;> tauto
    · have hb : (decide (d = none) || (d == some UNREGISTERED_DONGLE_ID)) = false := by
        push_neg at hd
        simp [hd.1, hd.2]
      rw [hb]
      cases noboard <;>
        simp [List.mem_append, List.mem_filter, string_ne_empty_iff, hd]

/-- Witness for C7: with an unregistered dongle id, NOBOARD set and
BLOCK="a,,b", the computed exclusion list is as described. -/
theorem ignore_set_fixed_witness :
    "pandad" ∈ computeIgnore (some "UnregisteredDevice") true "a,,b"
    ∧ ¬ ("" ∈ computeIgnore (some "UnregisteredDevice") true "a,,b") := by
  constructor
  · exact ((ignore_set_fixed [] (fun _ => none) true "a,,b" []).2
      (some "UnregisteredDevice") "pandad").mpr (Or.inr (Or.inl ⟨rfl, rfl⟩))
  · intro h
    have h2 := ((ignore_set_fixed [] (fun _ => none) true "a,,b" []).2
      (some "UnregisteredDevice") "").mp h
    rcases h2 with ⟨h3, h4 | h4⟩ | ⟨h3, h4⟩ | ⟨h3, h4⟩ <;> simp at h4

lemma manager_prepare_all (reg : List Proc) (h : ∀ p ∈ reg, p.prepareOk = true) :
    (manager_prepare reg).1 = reg.map (fun p => Event.prepareProc p.name)
    ∧ (manager_prepare reg).2 = false := by
  induction reg with
  | nil => exact ⟨rfl, rfl⟩
  | cons p rest ih =>
    have hp : p.prepareOk = true := h p (List.mem_cons_self p rest)
    have ih2 := ih (fun q hq => h q (List.mem_cons_of_mem p hq))
    unfold manager_prepare
    rw [hp]
    simp only [if_true, List.map_cons]
    exact ⟨by rw [ih2.1], ih2.2⟩

lemma manager_prepare_stops (l : List Proc) (p : Proc) (r : List Proc)
    (hok : ∀ q ∈ l, q.prepareOk = true) (hfail : p.prepareOk = false) :
    (manager_prepare (l ++ p :: r)).1
      = l.map (fun q => Event.prepareProc q.name) ++ [Event.prepareProc p.name]
    ∧ (manager_prepare (l ++ p :: r)).2 = true := by
  induction l with
  | nil =>
    simp only [List.nil_append, List.map_nil]
    unfold manager_prepare
    rw [hfail]
    exact ⟨rfl, rfl⟩
  | cons q l2 ih =>
    have hq : q.prepareOk = true := hok q (List.mem_cons_self q l2)
    have ih2 := ih (fun q2 hq2 => hok q2 (List.mem_cons_of_mem q hq2))
    simp only [List.cons_append, List.map_cons]
    unfold manager_prepare
    rw [hq]
    simp only [if_true]
    exact ⟨by rw [ih2.1], ih2.2⟩

/-- The registry used for the C8 counterexample: the first process's
prepare() raises, the second's would succeed. -/
def cexReg8 : List Proc := [⟨"a", "s", false⟩, ⟨"b", "s", true⟩]

/-- Counterexample to claim C8 as stated: manager_prepare is a plain for
loop, so when process "a" raises in prepare(), process "b" never has its
prepare() invoked — a failure in one preparation does block the rest. -/
theorem prepare_failure_blocks_rest_cex :
    Event.prepareProc "a" ∈ (manager_prepare cexReg8).1
    ∧ Event.prepareProc "b" ∉ (manager_prepare cexReg8).1
    ∧ (manager_prepare cexReg8).2 = true := by decide

/-- Claim C8 (amended): manager_prepare invokes prepare() on the
registered processes in registry order; when every prepare() succeeds all
processes are prepared, but a raising prepare() ends the loop: exactly the
processes before the failing one, plus the failing one itself, have been
invoked, and the exception propagates (the prepare-failed flag). -/
theorem prepare_invocation_until_failure (reg : List Proc) :
    ((∀ p ∈ reg, p.prepareOk = true) →
      (manager_prepare reg).1 = reg.map (fun p => Event.prepareProc p.name)
      ∧ (manager_prepare reg).2 = false)
    ∧ (∀ l p r, reg = l ++ p :: r → (∀ q ∈ l, q.prepareOk = true) →
        p.prepareOk = false →
        (manager_prepare reg).1
          = l.map (fun q => Event.prepareProc q.name) ++ [Event.prepareProc p.name]
        ∧ (manager_prepare reg).2 = true) := by
  constructor
  · exact manager_prepare_all reg
  · intro l p r hreg hok hfail
    subst hreg
    exact manager_prepare_stops l p r hok hfail

/-- Witness for the amended C8 on the concrete two-process registry. -/
theorem prepare_invocation_until_failure_witness :
    (manager_prepare cexReg8).1 = [Event.prepareProc "a"] :=
  ((prepare_invocation_until_failure cexReg8).2 [] ⟨"a", "s", false⟩ [⟨"b", "s", true⟩]
    rfl (by intro q hq; simp at hq) rfl).1

/-! ### Events of each phase of main -/

lemma mem_prepare_trace (reg : List Proc) (e : Event)
    (h : e ∈ (manager_prepare reg).1) : ∃ n, e = Event.prepareProc n := by
  induction reg with
  | nil => simp [manager_prepare] at h
  | cons p rest ih =>
    unfold manager_prepare at h
    by_cases hp : p.prepareOk = true
    · rw [if_pos hp] at h
      dsimp only at h
      rcases List.mem_cons.mp h with h1 | h2
      · exact ⟨p.name, h1⟩
      · exact ih h2
    · rw [if_neg hp] at h
      exact ⟨p.name, List.mem_singleton.mp h⟩

lemma isAct_mainPre (m : MainArgs) (e : Event) (h : e ∈ mainPre m) :
    isAct e = false := by
  unfold mainPre at h
  rcases List.mem_append.mp h with h1 | h2
  · rcases List.mem_append.mp h1 with h3 | h4
    · rcases List.mem_map.mp h3 with ⟨p, _, rfl⟩
      rfl
    · split at h4
      · simp at h4
      · rw [List.mem_singleton.mp h4]
        rfl
  · obtain ⟨n, rfl⟩ := mem_prepare_trace _ _ h2
    rfl

lemma isAct_thread (reg : List Proc) (store : Store) (noboard : Bool) (block : String)
    (inputs : List IterInput) (e : Event)
    (h : e ∈ (manager_thread reg store noboard block inputs).1) : isAct e = false := by
  rcases mem_thread reg store noboard block inputs e h with h1 | ⟨i, _, hin⟩
  · rw [h1]; rfl
  · rcases mem_iterTrace _ _ _ _ hin with h2 | h2 | ⟨v, h2⟩ <;> rw [h2] <;> rfl

lemma isAct_cleanup (reg : List Proc) (e : Event) (h : e ∈ manager_cleanup reg) :
    isAct e = false := by
  unfold manager_cleanup at h
  rcases List.mem_append.mp h with h1 | h1 <;>
    rcases List.mem_map.mp h1 with ⟨p, _, rfl⟩ <;> rfl

lemma dispatchEvents_acts (f : Flags) (e : Event) (h : e ∈ dispatchEvents f) :
    isAct e = true := by
  unfold dispatchEvents at h
  by_cases h1 : f.doUninstall = true
  · rw [if_pos h1] at h
    rw [List.mem_singleton.mp h]; rfl
  · rw [if_neg h1] at h
    by_cases h2 : f.doReboot = true
    · rw [if_pos h2] at h
      rw [List.mem_singleton.mp h]; rfl
    · rw [if_neg h2] at h
      by_cases h3 : f.doShutdown = true
      · rw [if_pos h3] at h
        rw [List.mem_singleton.mp h]; rfl
      · rw [if_neg h3] at h
        simp at h

lemma dispatchEvents_firstAction (f : Flags) (s : SysAction)
    (h : Event.act s ∈ dispatchEvents f) : firstAction f = some s := by
  unfold dispatchEvents at h
  unfold firstAction
  by_cases h1 : f.doUninstall = true
  · rw [if_pos h1] at h
    rw [if_pos h1]
    injection List.mem_singleton.mp h with hs
    rw [hs]
  · rw [if_neg h1] at h
    rw [if_neg h1]
    by_cases h2 : f.doReboot = true
    · rw [if_pos h2] at h
      rw [if_pos h2]
      injection List.mem_singleton.mp h with hs
      rw [hs]
    · rw [if_neg h2] at h
      rw [if_neg h2]
      by_cases h3 : f.doShutdown = true
      · rw [if_pos h3] at h
        rw [if_pos h3]
        injection List.mem_singleton.mp h with hs
        rw [hs]
      · rw [if_neg h3] at h
        simp at h

lemma dispatchEvents_len (f : Flags) : (dispatchEvents f).length ≤ 1 := by
  unfold dispatchEvents
  split
  · simp
  · split
    · simp
    · split <;> simp

/-- Trace shape of a run whose control loop was entered and exited:
either the normal/caught-Exception shape with the dispatch block appended
after teardown, or the SystemExit shape ending with teardown. -/
lemma manager_main_ran (a : MainArgs) (h : loopRan a = true) :
    (manager_main a).1
      = mainPre a ++ (manager_thread a.registry (manager_init a.initArgs a.store0).store
          a.noboard a.block a.inputs).1 ++ manager_cleanup a.registry
          ++ dispatchEvents a.dispatchFlags
    ∨ (manager_main a).1
      = mainPre a ++ (manager_thread a.registry (manager_init a.initArgs a.store0).store
          a.noboard a.block a.inputs).1 ++ manager_cleanup a.registry := by
  unfold loopRan at h
  unfold manager_main at h ⊢
  cases hf : (manager_init a.initArgs a.store0).failure with
  | some e =>
    rw [hf] at h
    simp at h
  | none =>
    rw [hf] at h
    dsimp only at h ⊢
    by_cases hp : (manager_prepare a.registry).2 = true
    · rw [if_pos hp] at h ⊢
      simp at h
    · rw [if_neg hp] at h ⊢
      by_cases ho : a.prepareOnly = true
      · rw [if_pos ho] at h ⊢
        simp [ho] at h
      · rw [if_neg ho] at h ⊢
        cases hte : (manager_thread a.registry (manager_init a.initArgs a.store0).store
            a.noboard a.block a.inputs).2 with
        | stillRunning =>
          rw [hte] at h
          simp [afterThread] at h
        | sysExitEsc =>
          right
          simp [afterThread, List.append_assoc]
        | normal =>
          left
          simp [afterThread, List.append_assoc]
        | errorEsc =>
          left
          simp [afterThread, List.append_assoc]

lemma filter_isAct_nil_of (l : List Event) (h : ∀ e ∈ l, isAct e = false) :
    l.filter isAct = [] := by
  induction l with
  | nil => rfl
  | cons e rest ih =>
    rw [List.filter_cons]
    simp only [h e (List.mem_cons_self e rest), Bool.false_eq_true, if_false]
    exact ih (fun x hx => h x (List.mem_cons_of_mem e hx))

/-- Claim C1: in every run whose control loop was entered and exited
(normally, by a caught Exception, or by the SIGTERM SystemExit), at most
one hardware action is dispatched; any dispatched action is the first one
whose flag reads true in the fixed order uninstall, reboot, shutdown; and
every dispatched action comes strictly after the completed manager_cleanup
teardown: the trace splits into an action-free part ending with the full
cleanup, followed only by dispatch actions. -/
theorem dispatch_single_after_teardown (a : MainArgs) (h : loopRan a = true) :
    ((manager_main a).1.filter isAct).length ≤ 1
    ∧ (∀ s, Event.act s ∈ (manager_main a).1 → firstAction a.dispatchFlags = some s)
    ∧ (∃ u v, (manager_main a).1 = u ++ v
        ∧ manager_cleanup a.registry <:+ u
        ∧ (∀ e ∈ u, isAct e = false)
        ∧ (∀ e ∈ v, isAct e = true)) := by
  have hnoact : ∀ e ∈ mainPre a
      ++ (manager_thread a.registry (manager_init a.initArgs a.store0).store
          a.noboard a.block a.inputs).1
      ++ manager_cleanup a.registry, isAct e = false := by
    intro e he
    rcases List.mem_append.mp he with h1 | h2
    · rcases List.mem_append.mp h1 with h3 | h4
      · exact isAct_mainPre a e h3
      · exact isAct_thread _ _ _ _ _ e h4
    · exact isAct_cleanup _ e h2
  rcases manager_main_ran a h with hm | hm
  · refine ⟨?_, ?_, ?_⟩
    · rw [hm, List.filter_append, filter_isAct_nil_of _ hnoact, List.nil_append]
      exact le_trans (List.length_filter_le _ _) (dispatchEvents_len _)
    · intro s hs
      rw [hm] at hs
      rcases List.mem_append.mp hs with h1 | h2
      · exact absurd (hnoact _ h1) (by simp [isAct])
      · exact dispatchEvents_firstAction _ s h2
    · refine ⟨_, dispatchEvents a.dispatchFlags, hm, ⟨_, rfl⟩, hnoact, ?_⟩
      intro e he
      exact dispatchEvents_acts _ e he
  · refine ⟨?_, ?_, ?_⟩
    · rw [hm, filter_isAct_nil_of _ hnoact]
      simp
    · intro s hs
      rw [hm] at hs
      exact absurd (hnoact _ hs) (by simp [isAct])
    · refine ⟨_, [], by rw [hm, List.append_nil], ⟨_, rfl⟩, hnoact, by simp⟩

/-- A run that enters the loop and exits normally on a DoReboot flag. -/
def cMain : MainArgs :=
  { initArgs := cInit, store0 := cStore, prepareOnly := false
    registry := [⟨"ui", "running", true⟩]
    noboard := false, block := ""
    inputs := [⟨true, false, false, true, ExcKind.noExc⟩]
    dispatchFlags := ⟨false, true, false⟩ }

/-- Witness for C1 on the concrete normal-shutdown run. -/
theorem dispatch_single_after_teardown_witness :
    ((manager_main cMain).1.filter isAct).length ≤ 1 :=
  (dispatch_single_after_teardown cMain (by rfl)).1

lemma filter_nb_of_nb (reg : List Proc) :
    ((reg.map fun p => Event.stopProc p.name false).filter isNonBlockStop)
      = reg.map fun p => Event.stopProc p.name false := by
  induction reg with
  | nil => rfl
  | cons p rest ih => simp [List.filter_cons, isNonBlockStop, ih]

lemma filter_nb_of_b (reg : List Proc) :
    ((reg.map fun p => Event.stopProc p.name true).filter isNonBlockStop) = [] := by
  induction reg with
  | nil => rfl
  | cons p rest ih => simp [List.filter_cons, isNonBlockStop, ih]

lemma filter_b_of_nb (reg : List Proc) :
    ((reg.map fun p => Event.stopProc p.name false).filter isBlockStop) = [] := by
  induction reg with
  | nil => rfl
  | cons p rest ih => simp [List.filter_cons, isBlockStop, ih]

lemma filter_b_of_b (reg : List Proc) :
    ((reg.map fun p => Event.stopProc p.name true).filter isBlockStop)
      = reg.map fun p => Event.stopProc p.name true := by
  induction reg with
  | nil => rfl
  | cons p rest ih => simp [List.filter_cons, isBlockStop, ih]

/-- Claim C2: teardown is two-phase — every registered process receives a
non-blocking stop and a blocking stop, all non-blocking stops precede all
blocking stops, and each phase runs over the registry in registry order —
and it is executed on every exit path of the control loop: the cleanup
trace is a contiguous part of the run trace whether the loop returned
normally, raised an Exception, or raised SystemExit. -/
theorem teardown_two_phase_every_exit (a : MainArgs) (h : loopRan a = true) :
    (∀ p ∈ a.registry,
        Event.stopProc p.name false ∈ manager_cleanup a.registry
        ∧ Event.stopProc p.name true ∈ manager_cleanup a.registry)
    ∧ (∃ t1 t2, manager_cleanup a.registry = t1 ++ t2
        ∧ (∀ e ∈ t1, isNonBlockStop e = true) ∧ (∀ e ∈ t2, isBlockStop e = true))
    ∧ ((manager_cleanup a.registry).filter isNonBlockStop
        = a.registry.map fun p => Event.stopProc p.name false)
    ∧ ((manager_cleanup a.registry).filter isBlockStop
        = a.registry.map fun p => Event.stopProc p.name true)
    ∧ manager_cleanup a.registry <:+: (manager_main a).1 := by
  refine ⟨?_, ?_, ?_, ?_, ?_⟩
  · intro p hp
    constructor
    · exact List.mem_append_left _ (List.mem_map.mpr ⟨p, hp, rfl⟩)
    · exact List.mem_append_right _ (List.mem_map.mpr ⟨p, hp, rfl⟩)
  · refine ⟨_, _, rfl, ?_, ?_⟩
    · intro e he
      rcases List.mem_map.mp he with ⟨p, _, rfl⟩
      rfl
    · intro e he
      rcases List.mem_map.mp he with ⟨p, _, rfl⟩
      rfl
  · rw [manager_cleanup, List.filter_append, filter_nb_of_nb, filter_nb_of_b,
      List.append_nil]
  · rw [manager_cleanup, List.filter_append, filter_b_of_nb, filter_b_of_b,
      List.nil_append]
  · rcases manager_main_ran a h with hm | hm
    · exact ⟨mainPre a ++ (manager_thread a.registry (manager_init a.initArgs a.store0).store
          a.noboard a.block a.inputs).1, dispatchEvents a.dispatchFlags, hm.symm⟩
    · refine ⟨mainPre a ++ (manager_thread a.registry (manager_init a.initArgs a.store0).store
          a.noboard a.block a.inputs).1, [], ?_⟩
      rw [List.append_nil]
      exact hm.symm

/-- A run whose loop is ended by an Exception escaping an iteration. -/
def cMain2 : MainArgs :=
  { initArgs := cInit, store0 := cStore, prepareOnly := false
    registry := [⟨"ui", "running", true⟩]
    noboard := false, block := ""
    inputs := [⟨false, false, false, false, ExcKind.raiseError⟩]
    dispatchFlags := ⟨false, false, false⟩ }

/-- Witness for C2 on the concrete exception-exit run. -/
theorem teardown_two_phase_every_exit_witness :
    manager_cleanup cMain2.registry <:+: (manager_main cMain2).1 :=
  (teardown_two_phase_every_exit cMain2 (by rfl)).2.2.2.2
